import Mathlib

/-!
Verification of the goldmark HTML renderer (renderer/html/html.go).

The embedding models byte slices as `List Nat` (each entry a byte value 0..255),
Go strings as their byte sequences, and output produced on the `util.BufWriter`
as the list of bytes appended.  Functions that can panic in Go (out-of-range
indexing, failed type assertions) return `Option`: `none` models a panic.

Definitions are translated from renderer/html/html.go.  Helpers from the
repository's `util` and `ast` packages are not part of the given sources; each
such helper is modelled from the natural-language specification and carries a
doc comment beginning with "Modelled from the spec:".  Semantics of Go standard
library functions (strconv.ParseUint, bytes.ToLower, UTF-8 encoding of
WriteRune) are embedded following their documented behaviour.
-/

namespace GoldmarkHTML

/-- Byte sequences: each element is one byte value. -/
abbrev Bytes := List Nat

/-- Translation of `htmlEscaleTable` (html.go line 486): a 256-entry table that
is non-nil exactly at the bytes 34 = quote, 38 = ampersand, 60 = less-than and
62 = greater-than, mapping them to their HTML escape sequences. -/
def htmlEscaleTable (b : Nat) : Option Bytes :=
  if b = 34 then some [38, 113, 117, 111, 116, 59]  -- the bytes of "&quot;"
  else if b = 38 then some [38, 97, 109, 112, 59]  -- the bytes of "&amp;"
  else if b = 60 then some [38, 108, 116, 59]  -- the bytes of "&lt;"
  else if b = 62 then some [38, 103, 116, 59]  -- the bytes of "&gt;"
  else none

/-- The per-byte image of the escape table: the replacement sequence for the
four escaped metacharacters and the byte itself for every other byte.  Used to
state what `RawWrite` emits for each input byte. -/
def escByte (b : Nat) : Bytes :=
  (htmlEscaleTable b).getD [b]

/-- Translation of the loop of `defaultWriter.RawWrite` (html.go lines 499-515):
`i` is the scan position, `n` the length of the pending run of unescaped bytes
ending just before `i`.  On a table hit the pending run `source[i-n:i]` is
flushed, then the replacement; at the end the trailing run `source[l-n:]` is
flushed. -/
def rawWriteGo (source : Bytes) (i n : Nat) : Bytes :=
  if _h : i < source.length then
    match htmlEscaleTable (source.getD i 0) with
    | some v => (source.drop (i - n)).take (i - (i - n)) ++ v ++ rawWriteGo source (i + 1) 0
    | none => rawWriteGo source (i + 1) (n + 1)
  else
    if n ≠ 0 then source.drop (source.length - n) else []
termination_by source.length - i
decreasing_by all_goals omega

/-- Translation of `defaultWriter.RawWrite` (html.go lines 499-515). -/
def rawWrite (source : Bytes) : Bytes :=
  rawWriteGo source 0 0

/-- Modelled from the spec: `util.IsPunct` is not under src/; the spec (section
4.2, step 1) calls it a test for an ASCII punctuation character, i.e. the byte
ranges 33-47, 58-64, 91-96 and 123-126. -/
def isPunct (c : Nat) : Bool :=
  (33 ≤ c && c ≤ 47) || (58 ≤ c && c ≤ 64) || (91 ≤ c && c ≤ 96) || (123 ≤ c && c ≤ 126)

/-- Modelled from the spec: `util.IsNumeric` is not under src/; the spec says
decimal digits, i.e. bytes 48-57. -/
def isNumeric (c : Nat) : Bool :=
  48 ≤ c && c ≤ 57

/-- Modelled from the spec: `util.IsHexDecimal` is not under src/; the spec
says hexadecimal digits: 0-9, a-f, A-F. -/
def isHexDecimal (c : Nat) : Bool :=
  (48 ≤ c && c ≤ 57) || (97 ≤ c && c ≤ 102) || (65 ≤ c && c ≤ 70)

/-- Modelled from the spec: `util.IsAlphaNumeric` is not under src/; the spec
says alphanumeric characters: 0-9, a-z, A-Z. -/
def isAlphaNumeric (c : Nat) : Bool :=
  (48 ≤ c && c ≤ 57) || (97 ≤ c && c ≤ 122) || (65 ≤ c && c ≤ 90)

/-- Modelled from the spec: `util.ToValidRune` is not under src/; the spec says
code points outside the valid range are substituted with the replacement
character (65533).  Valid means a Unicode scalar value: positive, at most
1114111 and not a surrogate; the zero code point is likewise replaced. -/
def toValidRune (r : Int) : Nat :=
  if r ≤ 0 ∨ 1114111 < r ∨ (55296 ≤ r ∧ r ≤ 57343) then 65533 else r.toNat

/-- Standard UTF-8 encoding of a Unicode scalar value, the behaviour of Go's
`WriteRune` on the valid runes produced by `toValidRune`. -/
def utf8Encode (c : Nat) : Bytes :=
  if c < 128 then [c]
  else if c < 2048 then [192 + c / 64, 128 + c % 64]
  else if c < 65536 then [224 + c / 4096, 128 + (c / 64) % 64, 128 + c % 64]
  else [240 + c / 262144, 128 + (c / 4096) % 64, 128 + (c / 64) % 64, 128 + c % 64]

/-- Translation of `escapeRune` (html.go lines 488-497): runes below 256 whose
low byte is in the escape table emit the table sequence; otherwise the rune is
made valid and written in UTF-8.  `r` is a Go `rune` (int32); the Go byte cast
`byte(r)` is the low eight bits, i.e. `r` modulo 256. -/
def escapeRuneOut (r : Int) : Bytes :=
  if r < 256 then
    match htmlEscaleTable (r % 256).toNat with
    | some v => v
    | none => utf8Encode (toValidRune r)
  else utf8Encode (toValidRune r)

/-- The value of an ASCII hexadecimal digit byte. -/
def hexDigitVal (c : Nat) : Nat :=
  if 48 ≤ c ∧ c ≤ 57 then c - 48
  else if 97 ≤ c ∧ c ≤ 102 then c - 87
  else if 65 ≤ c ∧ c ≤ 70 then c - 55
  else 0

/-- Go `strconv.ParseUint(s, 16, 32)` on a nonempty string of hexadecimal
digits: the base-16 value, clamped to the 32-bit maximum on range error (the
caller ignores the error and keeps the clamped value). -/
def parseHexUint32 (ds : Bytes) : Nat :=
  let v := ds.foldl (fun a c => a * 16 + hexDigitVal c) 0
  if v > 4294967295 then 4294967295 else v

/-- Go `strconv.ParseUint(s, 0, 32)` on a nonempty string of decimal digits:
with base 0 the base is inferred from the prefix, so a leading zero followed by
at least one more character selects octal; an octal parse that meets a digit 8
or 9 is a syntax error and yields the value 0 (the caller ignores the error);
otherwise the string is read as decimal.  Values are clamped to the 32-bit
maximum on range error. -/
def parseUintBase0 (ds : Bytes) : Nat :=
  if ds.headD 0 = 48 ∧ 2 ≤ ds.length then
    if ds.tail.all (fun c => 48 ≤ c && c ≤ 55) then
      let v := ds.tail.foldl (fun a c => a * 8 + (c - 48)) 0
      if v > 4294967295 then 4294967295 else v
    else 0
  else
    let v := ds.foldl (fun a c => a * 10 + (c - 48)) 0
    if v > 4294967295 then 4294967295 else v

/-- The Go cast `rune(v)` of a `uint64` value known to fit in 32 bits: values
with the high bit set wrap around to negative int32 values. -/
def uint32ToRune (v : Nat) : Int :=
  if v < 2147483648 then (v : Int) else (v : Int) - 4294967296

/-- Modelled from the spec: `util.LookUpHTML5EntityByName` and the Entity Table
are not under src/; the spec (section 3) describes a read-only mapping from
entity names such as "amp" and "quot" to their decoded character sequences.
Only the entries the claims exercise are included; absent names behave as
lookup failures, exactly as unknown names do in the real table.  The result is
the entity's decoded byte sequence (the `Characters` field). -/
def lookUpHTML5EntityByName (name : Bytes) : Option Bytes :=
  if name = [97, 109, 112] then some [38]  -- name "amp", characters "&"
  else if name = [113, 117, 111, 116] then some [34]  -- name "quot"
  else if name = [108, 116] then some [60]  -- name "lt"
  else if name = [103, 116] then some [62]  -- name "gt"
  else none

/-- Translation of `readWhile` (html.go lines 458-470): scan from `i0` while
the position is below `stop` and the byte satisfies `pred`; return the first
failing position and whether at least one byte was consumed.  The scanned
positions are exactly the maximal satisfying prefix of `source[i0:stop]`
(callers always pass `stop` = the length of `source`). -/
def readWhile (source : Bytes) (i0 stop : Nat) (pred : Nat → Bool) : Nat × Bool :=
  let run := (((source.drop i0).take (stop - i0)).takeWhile pred).length
  (i0 + run, run != 0)

/-- Translation of the loop of `defaultWriter.Write` (html.go lines 517-585).
`i` is the scan position, `n` the start index of the pending raw run,
`escaped` records an unconsumed backslash at position `i - 1`.  The branches
follow the Go code in order: a backslash-escaped punctuation byte; an
ampersand starting a hexadecimal (`&#x`/`&#X`), decimal (`&#`) or named
(`&name;`) character reference, each falling back to literal text when the
reference does not terminate properly; a backslash setting `escaped`; any
other byte extending the run.  The read `nc := source[nnext]` happens in Go
before any bounds check on `nnext`; `none` models the resulting index
out-of-range panic when `nnext` is past the end. -/
def writeLoop (source : Bytes) (limit i n : Nat) (escaped : Bool) : Option Bytes :=
  if hi : i < limit then
    let c := source.getD i 0
    if escaped = true ∧ isPunct c = true then
      (writeLoop source limit (i + 1) i false).map
        (fun rest => rawWrite ((source.drop n).take (i - 1 - n)) ++ rest)
    else if c = 38 then
      let pos := i
      let next := i + 1
      if next < limit ∧ source.getD next 0 = 35 then
        let nnext := next + 1
        if hb : nnext < source.length then
          let nc := source.getD nnext 0
          if (nnext < limit ∧ nc = 120) ∨ nc = 88 then
            let start := nnext + 1
            let res := readWhile source start limit isHexDecimal
            if hr : res.2 = true ∧ res.1 < limit ∧ source.getD res.1 0 = 59 then
              let v := parseHexUint32 ((source.drop start).take (res.1 - start))
              (writeLoop source limit (res.1 + 1) (res.1 + 1) escaped).map
                (fun rest =>
                  rawWrite ((source.drop n).take (pos - n)) ++
                    escapeRuneOut (uint32ToRune v) ++ rest)
            else
              writeLoop source limit (pos + 1) n false
          else if 48 ≤ nc ∧ nc ≤ 57 then
            let start := nnext
            let res := readWhile source start limit isNumeric
            if hr : res.2 = true ∧ res.1 < limit ∧ res.1 - start < 8 ∧ source.getD res.1 0 = 59 then
              let v := parseUintBase0 ((source.drop start).take (res.1 - start))
              (writeLoop source limit (res.1 + 1) (res.1 + 1) escaped).map
                (fun rest =>
                  rawWrite ((source.drop n).take (pos - n)) ++
                    escapeRuneOut (uint32ToRune v) ++ rest)
            else
              writeLoop source limit (pos + 1) n false
          else
            writeLoop source limit (pos + 1) n false
        else
          none
      else
        let start := next
        let res := readWhile source start limit isAlphaNumeric
        if hr : res.2 = true ∧ res.1 < limit ∧ source.getD res.1 0 = 59 then
          let entity := lookUpHTML5EntityByName ((source.drop start).take (res.1 - start))
          if entity.isSome then
            (writeLoop source limit (res.1 + 1) (res.1 + 1) escaped).map
              (fun rest =>
                rawWrite ((source.drop n).take (pos - n)) ++
                  rawWrite (entity.getD []) ++ rest)
          else
            writeLoop source limit (pos + 1) n false
        else
          writeLoop source limit (pos + 1) n false
    else if c = 92 then
      writeLoop source limit (i + 1) n true
    else
      writeLoop source limit (i + 1) n false
  else
    some (rawWrite (source.drop n))
termination_by limit - i
decreasing_by
  all_goals simp_all [readWhile]
  all_goals omega

/-- Translation of `defaultWriter.Write` (html.go lines 517-585): scan the
whole input with an initially clear backslash state and an empty pending run,
flushing the trailing run through `RawWrite` at the end. -/
def write (source : Bytes) : Option Bytes :=
  writeLoop source source.length 0 0 false

/-- Every ampersand in the list begins one of the four escape sequences of the
escape table.  Used to state that `RawWrite` emits no unescaped ampersand. -/
def ampOk : List Nat → Bool
  | [] => true
  | b :: rest =>
    if b = 38 then
      (decide (rest.take 5 = [113, 117, 111, 116, 59]) && ampOk (rest.drop 5)) ||
      (decide (rest.take 4 = [97, 109, 112, 59]) && ampOk (rest.drop 4)) ||
      (decide (rest.take 3 = [108, 116, 59]) && ampOk (rest.drop 3)) ||
      (decide (rest.take 3 = [103, 116, 59]) && ampOk (rest.drop 3))
    else ampOk rest
termination_by l => l.length
decreasing_by all_goals simp [List.length_drop] <;> omega

/-- Modelled from the spec: `ast.Segment` is not under src/; the spec (section
3) defines a Segment as a half-open byte range into the Source Buffer. -/
structure Segment where
  start : Nat
  stop : Nat

/-- Modelled from the spec: `Segment.Value(source)` is the viewed slice
`source[start:stop]`. -/
def Segment.value (source : Bytes) (s : Segment) : Bytes :=
  (source.drop s.start).take (s.stop - s.start)

/-- The `ast.AutoLinkType` of an AutoLink node: URL or bare email address. -/
inductive AutoLinkType where
  | url
  | email
deriving DecidableEq

/-- The `ast.WalkStatus` traversal directives returned to the walking driver. -/
inductive WalkStatus where
  | Stop
  | SkipChildren
  | Continue
deriving DecidableEq

/-- The single error value `renderer.NotSupported` returned by the dispatcher
for a node kind outside its closed set. -/
inductive RenderError where
  | notSupported
deriving DecidableEq

/-- Translation of `Config` (html.go lines 14-18) restricted to the two boolean
toggles; the pluggable `Writer` is fixed to the default writer embedded above,
which is the implementation all claims are about. -/
structure Config where
  softLineBreak : Bool
  xhtml : Bool

/-- Translation of `NewConfig` (html.go lines 21-27): both toggles default to
false. -/
def NewConfig : Config :=
  ⟨false, false⟩

/-- The document tree: one constructor per `ast` node kind handled by the
dispatcher (html.go lines 136-178), carrying exactly the attributes the
renderer reads.  `other` stands for any `ast.Node` implementation outside this
closed set, the case the dispatcher rejects. -/
inductive Node where
  | document (children : List Node)
  | heading (level : Nat) (id : Option Bytes) (children : List Node)
  | blockquote (children : List Node)
  | codeBlock (lines : List Segment) (children : List Node)
  | fencedCodeBlock (info : Option Segment) (lines : List Segment) (children : List Node)
  | htmlBlock (lines : List Segment) (closureLine : Option Segment) (children : List Node)
  | list (ordered : Bool) (start : Nat) (children : List Node)
  | listItem (children : List Node)
  | paragraph (children : List Node)
  | textBlock (children : List Node)
  | themanticBreak
  | autoLink (autoLinkType : AutoLinkType) (value : Segment)
  | codeSpan (children : List Node)
  | emphasis (level : Nat) (children : List Node)
  | image (destination : Bytes) (title : Option Bytes) (children : List Node)
  | link (destination : Bytes) (title : Option Bytes) (children : List Node)
  | rawHTML
  | text (segment : Segment) (raw hardLineBreak softLineBreakFlag : Bool)
  | other

/-- Whether the Go type assertion `fc.(*ast.TextBlock)` would succeed. -/
def Node.isTextBlock : Node → Bool
  | .textBlock _ => true
  | _ => false

/-- Whether the node kind is in the dispatcher's closed set. -/
def Node.isSupported : Node → Bool
  | .other => false
  | _ => true

/-- Whether the node is a CodeSpan. -/
def Node.isCodeSpan : Node → Bool
  | .codeSpan _ => true
  | _ => false

/-- Whether the node is an Image. -/
def Node.isImage : Node → Bool
  | .image _ _ _ => true
  | _ => false

mutual

/-- Modelled from the spec: the flattened text content of a subtree, the
`n.Text(source)` used for an image's alt attribute ("alt text is the flattened
text content of the subtree", section 4.1); the `ast` package is not under
src/.  A text node contributes its segment's bytes, every other node the
concatenation over its children. -/
def Node.textContent (source : Bytes) : Node → Bytes
  | .text seg _ _ _ => seg.value source
  | .document cs => Node.textContentList source cs
  | .heading _ _ cs => Node.textContentList source cs
  | .blockquote cs => Node.textContentList source cs
  | .codeBlock _ cs => Node.textContentList source cs
  | .fencedCodeBlock _ _ cs => Node.textContentList source cs
  | .htmlBlock _ _ cs => Node.textContentList source cs
  | .list _ _ cs => Node.textContentList source cs
  | .listItem cs => Node.textContentList source cs
  | .paragraph cs => Node.textContentList source cs
  | .textBlock cs => Node.textContentList source cs
  | .themanticBreak => []
  | .autoLink _ _ => []
  | .codeSpan cs => Node.textContentList source cs
  | .emphasis _ cs => Node.textContentList source cs
  | .image _ _ cs => Node.textContentList source cs
  | .link _ _ cs => Node.textContentList source cs
  | .rawHTML => []
  | .other => []

/-- Flattened text content of a list of sibling nodes. -/
def Node.textContentList (source : Bytes) : List Node → Bytes
  | [] => []
  | c :: cs => Node.textContent source c ++ Node.textContentList source cs

end

/-- Go `bytes.ToLower` restricted to ASCII letters, the case relevant for the
`mailto:` prefix comparison. -/
def bytesToLower (v : Bytes) : Bytes :=
  v.map (fun b => if 65 ≤ b ∧ b ≤ 90 then b + 32 else b)

/-- Decimal digits of a natural number, most significant first, as produced by
Go's `fmt.Fprintf` verb `%d`. -/
def natDecimalAux (n : Nat) (acc : Bytes) : Bytes :=
  if n < 10 then (48 + n) :: acc
  else natDecimalAux (n / 10) ((48 + n % 10) :: acc)
termination_by n
decreasing_by exact Nat.div_lt_self (by omega) (by omega)

/-- Decimal ASCII representation of a natural number. -/
def natDecimal (n : Nat) : Bytes :=
  natDecimalAux n []

/-- Modelled from the spec: `util.EscapeHTML` is not under src/; the spec says
the autolink and link destinations are HTML-escaped, which is the escape-table
substitution also performed by `RawWrite`. -/
def escapeHTML (v : Bytes) : Bytes :=
  v.flatMap escByte

/-- Modelled from the spec: `util.URLEscape` is not under src/; the spec says
only that destinations are URL-escaped.  Modelled as percent-encoding of every
byte outside the unreserved and reserved URL byte sets; the second argument
mirrors Go's `resolveReference` flag, which does not affect the byte classes
modelled here. -/
def urlEscapeByte (b : Nat) : Bytes :=
  if isAlphaNumeric b ||
      (b ∈ [33, 35, 36, 38, 39, 40, 41, 42, 43, 44, 45, 46, 47, 58, 59, 61, 63, 64, 95, 126]) then
    [b]
  else
    [37, (fun n => if n < 10 then 48 + n else 55 + n) (b / 16),
      (fun n => if n < 10 then 48 + n else 55 + n) (b % 16)]

/-- Modelled from the spec: URL escaping applied byte for byte. -/
def urlEscape (v : Bytes) (_resolveReference : Bool) : Bytes :=
  v.flatMap urlEscapeByte

/-- Translation of `Renderer.writeLines` (html.go lines 181-187): raw emission
of every line segment. -/
def writeLines (source : Bytes) (lines : List Segment) : Bytes :=
  lines.flatMap (fun seg => rawWrite (seg.value source))

/-- Translation of `renderDocument` (html.go lines 189-192). -/
def renderDocument (_entering : Bool) : Bytes × WalkStatus :=
  ([], .Continue)

/-- Translation of `renderHeading` (html.go lines 194-210).  The digit byte is
the `Level`-th byte of the Go string "0123456"; indexing past it (level above
six) panics, modelled by `none`. -/
def renderHeading (level : Nat) (id : Option Bytes) (entering : Bool) :
    Option (Bytes × WalkStatus) :=
  (([48, 49, 50, 51, 52, 53, 54] : Bytes).get? level).map (fun d =>
    if entering then
      ([60, 104, d] ++  -- "<h" and the level digit
        (match id with
          | some v => [32, 105, 100, 61, 34] ++ v ++ [34]  -- the id attribute
          | none => []) ++ [62], .Continue)
    else
      ([60, 47, 104, d, 62, 10], .Continue))  -- "</h", digit, ">" and newline

/-- Translation of `renderBlockquote` (html.go lines 212-219). -/
def renderBlockquote (entering : Bool) : Bytes × WalkStatus :=
  if entering then
    ([60, 98, 108, 111, 99, 107, 113, 117, 111, 116, 101, 62, 10], .Continue)  -- "<blockquote>" nl
  else
    ([60, 47, 98, 108, 111, 99, 107, 113, 117, 111, 116, 101, 62, 10], .Continue)

/-- Translation of `renderCodeBlock` (html.go lines 221-229). -/
def renderCodeBlock (source : Bytes) (lines : List Segment) (entering : Bool) :
    Bytes × WalkStatus :=
  if entering then
    ([60, 112, 114, 101, 62, 60, 99, 111, 100, 101, 62] ++ writeLines source lines, .Continue)
  else
    ([60, 47, 99, 111, 100, 101, 62, 60, 47, 112, 114, 101, 62, 10], .Continue)

/-- Translation of `renderFencedCodeBlock` (html.go lines 231-254): the
language class is the info string up to the first space, emitted through the
interpreting writer (`Writer.Write`, which can panic, hence `Option`). -/
def renderFencedCodeBlock (source : Bytes) (info : Option Segment) (lines : List Segment)
    (entering : Bool) : Option (Bytes × WalkStatus) :=
  if entering then
    match info with
    | some seg =>
      let language := (seg.value source).takeWhile (fun c => c != 32)
      (write language).map (fun lo =>
        ([60, 112, 114, 101, 62, 60, 99, 111, 100, 101] ++  -- "<pre><code"
          [32, 99, 108, 97, 115, 115, 61, 34, 108, 97, 110, 103, 117, 97, 103, 101, 45] ++
          lo ++ [34] ++ [62] ++ writeLines source lines, .Continue))
    | none =>
      some ([60, 112, 114, 101, 62, 60, 99, 111, 100, 101] ++ [62] ++ writeLines source lines,
        .Continue)
  else
    some ([60, 47, 99, 111, 100, 101, 62, 60, 47, 112, 114, 101, 62, 10], .Continue)

/-- Translation of `renderHTMLBlock` (html.go lines 256-270): verbatim copy of
the line segments on enter, of the closure line (if any) on exit. -/
def renderHTMLBlock (source : Bytes) (lines : List Segment) (closureLine : Option Segment)
    (entering : Bool) : Bytes × WalkStatus :=
  if entering then
    (lines.flatMap (fun seg => seg.value source), .Continue)
  else
    (match closureLine with
      | some c => c.value source
      | none => [], .Continue)

/-- Translation of `renderList` (html.go lines 272-291): the start attribute is
emitted only for an ordered list whose start is not one. -/
def renderList (ordered : Bool) (start : Nat) (entering : Bool) : Bytes × WalkStatus :=
  let tag : Bytes := if ordered then [111, 108] else [117, 108]  -- "ol" / "ul"
  if entering then
    ([60] ++ tag ++
      (if ordered ∧ start ≠ 1 then
        [32, 115, 116, 97, 114, 116, 61, 34] ++ natDecimal start ++ [34, 62, 10]
      else [62, 10]), .Continue)
  else
    ([60, 47] ++ tag ++ [62, 10], .Continue)

/-- Translation of `renderListItem` (html.go lines 293-306): after the open tag
a newline is written when there is a first child and it is not a TextBlock. -/
def renderListItem (children : List Node) (entering : Bool) : Bytes × WalkStatus :=
  if entering then
    ([60, 108, 105, 62] ++  -- "<li>"
      (match children with
        | [] => []
        | fc :: _ => if fc.isTextBlock then [] else [10]), .Continue)
  else
    ([60, 47, 108, 105, 62, 10], .Continue)  -- "</li>" and newline

/-- Translation of `renderParagraph` (html.go lines 308-315). -/
def renderParagraph (entering : Bool) : Bytes × WalkStatus :=
  if entering then
    ([60, 112, 62], .Continue)  -- "<p>"
  else
    ([60, 47, 112, 62, 10], .Continue)  -- "</p>" and newline

/-- Translation of `renderTextBlock` (html.go lines 317-325): on exit, a bare
newline when the node has a next sibling (the Go interface type assertion on
`n.NextSibling()` succeeds exactly when the sibling is non-nil) and a first
child.  `hasNextSibling` carries that tree context into the single-node
dispatch. -/
def renderTextBlock (children : List Node) (hasNextSibling : Bool) (entering : Bool) :
    Bytes × WalkStatus :=
  if !entering then
    (if hasNextSibling && !children.isEmpty then [10] else [], .Continue)
  else
    ([], .Continue)

/-- Translation of `renderThemanticBreak` (html.go lines 327-337), keeping the
source's spelling: the rule is emitted on enter only, self-closed in XHTML
mode. -/
def renderThemanticBreak (cfg : Config) (entering : Bool) : Bytes × WalkStatus :=
  if !entering then
    ([], .Continue)
  else if cfg.xhtml then
    ([60, 104, 114, 32, 47, 62, 10], .Continue)  -- "<hr />" and newline
  else
    ([60, 104, 114, 62, 10], .Continue)  -- "<hr>" and newline

/-- Translation of `renderAutoLink` (html.go lines 339-354): the whole anchor
is emitted on enter; `mailto:` is prefixed for email autolinks whose
lowercased value does not already start with it; the destination is URL- then
HTML-escaped and the visible text HTML-escaped.  The returned directive is
`WalkContinue`. -/
def renderAutoLink (source : Bytes) (autoLinkType : AutoLinkType) (value : Segment)
    (entering : Bool) : Bytes × WalkStatus :=
  if !entering then
    ([], .Continue)
  else
    let v := value.value source
    ([60, 97, 32, 104, 114, 101, 102, 61, 34] ++  -- the bytes of `<a href="`
      (if autoLinkType = .email ∧
          ¬(List.isPrefixOf [109, 97, 105, 108, 116, 111, 58] (bytesToLower v)) then
        [109, 97, 105, 108, 116, 111, 58]  -- "mailto:"
      else []) ++
      escapeHTML (urlEscape v false) ++
      [34, 62] ++  -- the bytes of `">`
      escapeHTML v ++
      [60, 47, 97, 62], .Continue)  -- "</a>"

/-- Translation of the child loop of `renderCodeSpan` (html.go lines 359-370):
every child must be a text node (the Go type assertion panics otherwise,
modelled by `none`); a line value ending in a newline loses that newline and,
when the child is not the last one, gains a single space. -/
def codeSpanChildren (source : Bytes) : List Node → Option Bytes
  | [] => some []
  | c :: rest =>
    match c with
    | .text seg _ _ _ =>
      let value := seg.value source
      let part :=
        if value.getLast? = some 10 then
          rawWrite (value.take (value.length - 1)) ++
            (match rest with
              | [] => []
              | _ :: _ => rawWrite [32])
        else rawWrite value
      (codeSpanChildren source rest).map (fun tail => part ++ tail)
    | _ => none

/-- Translation of `renderCodeSpan` (html.go lines 356-375): children are
flattened on enter and the subtree is skipped. -/
def renderCodeSpan (source : Bytes) (children : List Node) (entering : Bool) :
    Option (Bytes × WalkStatus) :=
  if entering then
    (codeSpanChildren source children).map (fun body =>
      ([60, 99, 111, 100, 101, 62] ++ body, .SkipChildren))  -- "<code>"
  else
    some ([60, 47, 99, 111, 100, 101, 62], .Continue)  -- "</code>"

/-- Translation of `renderEmphasis` (html.go lines 377-392): level two is
strong, anything else em. -/
def renderEmphasis (level : Nat) (entering : Bool) : Bytes × WalkStatus :=
  let tag : Bytes := if level = 2 then [115, 116, 114, 111, 110, 103] else [101, 109]
  if entering then
    ([60] ++ tag ++ [62], .Continue)
  else
    ([60, 47] ++ tag ++ [62], .Continue)

/-- Translation of `renderLink` (html.go lines 394-408): escaped destination,
optional title emitted through the interpreting writer. -/
def renderLink (destination : Bytes) (title : Option Bytes) (entering : Bool) :
    Option (Bytes × WalkStatus) :=
  if entering then
    let head := [60, 97, 32, 104, 114, 101, 102, 61, 34] ++  -- `<a href="`
      escapeHTML (urlEscape destination true) ++ [34]
    match title with
    | some t =>
      (write t).map (fun titleOut =>
        (head ++ [32, 116, 105, 116, 108, 101, 61, 34] ++ titleOut ++ [34] ++ [62], .Continue))
    | none => some (head ++ [62], .Continue)
  else
    some ([60, 47, 97, 62], .Continue)  -- "</a>"

/-- Translation of `renderImage` (html.go lines 410-430): the whole element is
emitted on enter with the subtree's flattened text as the alt attribute
(written raw), and the subtree is skipped. -/
def renderImage (cfg : Config) (source : Bytes) (destination : Bytes) (title : Option Bytes)
    (children : List Node) (entering : Bool) : Option (Bytes × WalkStatus) :=
  if !entering then
    some ([], .Continue)
  else
    let head := [60, 105, 109, 103, 32, 115, 114, 99, 61, 34] ++  -- `<img src="`
      escapeHTML (urlEscape destination true) ++
      [34, 32, 97, 108, 116, 61, 34] ++  -- `" alt="`
      Node.textContentList source children ++ [34]
    let tail : Bytes := if cfg.xhtml then [32, 47, 62] else [62]  -- " />" / ">"
    match title with
    | some t =>
      (write t).map (fun titleOut =>
        (head ++ [32, 116, 105, 116, 108, 101, 61, 34] ++ titleOut ++ [34] ++ tail, .SkipChildren))
    | none => some (head ++ tail, .SkipChildren)

/-- Translation of `renderRawHTML` (html.go lines 432-434). -/
def renderRawHTML (_entering : Bool) : Bytes × WalkStatus :=
  ([], .Continue)

/-- Translation of `renderText` (html.go lines 436-456): raw text is copied
verbatim; otherwise the segment goes through the interpreting writer, followed
by a break tag on a hard break (or a soft break in soft-line-break mode), else
a bare newline on a soft break. -/
def renderText (cfg : Config) (source : Bytes) (segment : Segment)
    (raw hardLineBreak softLineBreakFlag : Bool) (entering : Bool) :
    Option (Bytes × WalkStatus) :=
  if !entering then
    some ([], .Continue)
  else if raw then
    some (segment.value source, .Continue)
  else
    (write (segment.value source)).map (fun o =>
      (o ++
        (if hardLineBreak ∨ (softLineBreakFlag ∧ cfg.softLineBreak) then
          if cfg.xhtml then [60, 98, 114, 32, 47, 62, 10]  -- "<br />" and newline
          else [60, 98, 114, 62, 10]  -- "<br>" and newline
        else if softLineBreakFlag then [10]
        else []), .Continue))

/-- Attach the nil error to a per-kind result: every supported kind returns its
walk status with a nil error. -/
def withNoErr (o : Option (Bytes × WalkStatus)) :
    Option (Bytes × WalkStatus × Option RenderError) :=
  o.map (fun r => (r.1, r.2, none))

/-- Translation of `Renderer.Render` (html.go lines 135-180): the type switch
over the closed set of node kinds; every listed kind delegates to its
per-kind rule with a nil error, and any other kind returns `WalkContinue`
together with the `renderer.NotSupported` error. -/
def render (cfg : Config) (source : Bytes) (n : Node) (hasNextSibling : Bool)
    (entering : Bool) : Option (Bytes × WalkStatus × Option RenderError) :=
  match n with
  | .document _ => withNoErr (some (renderDocument entering))
  | .heading level id _ => withNoErr (renderHeading level id entering)
  | .blockquote _ => withNoErr (some (renderBlockquote entering))
  | .codeBlock lines _ => withNoErr (some (renderCodeBlock source lines entering))
  | .fencedCodeBlock info lines _ => withNoErr (renderFencedCodeBlock source info lines entering)
  | .htmlBlock lines closureLine _ =>
    withNoErr (some (renderHTMLBlock source lines closureLine entering))
  | .list ordered start _ => withNoErr (some (renderList ordered start entering))
  | .listItem children => withNoErr (some (renderListItem children entering))
  | .paragraph _ => withNoErr (some (renderParagraph entering))
  | .textBlock children => withNoErr (some (renderTextBlock children hasNextSibling entering))
  | .themanticBreak => withNoErr (some (renderThemanticBreak cfg entering))
  | .autoLink t v => withNoErr (some (renderAutoLink source t v entering))
  | .codeSpan children => withNoErr (renderCodeSpan source children entering)
  | .emphasis level _ => withNoErr (some (renderEmphasis level entering))
  | .image dest title children => withNoErr (renderImage cfg source dest title children entering)
  | .link dest title _ => withNoErr (renderLink dest title entering)
  | .rawHTML => withNoErr (some (renderRawHTML entering))
  | .text seg raw hb sb => withNoErr (renderText cfg source seg raw hb sb entering)
  | .other => some ([], .Continue, some .notSupported)

/-! ## Helper lemmas -/

theorem escByte_of_table_none (b : Nat) (h : htmlEscaleTable b = none) : escByte b = [b] := by
  simp [escByte, h]

/-- The index-based `RawWrite` loop is the per-byte escape-table substitution:
with a pending run of `n` unescaped bytes before position `i`, the remaining
output is that run followed by the image of the remaining input. -/
theorem rawWriteGo_eq_flatMap (source : Bytes) (i n : Nat) (hn : n ≤ i)
    (hi : i ≤ source.length) :
    rawWriteGo source i n =
      (source.drop (i - n)).take (i - (i - n)) ++ (source.drop i).flatMap escByte := by
  rw [rawWriteGo.eq_def]
  by_cases h : i < source.length
  · rw [dif_pos h]
    have hdrop : source.drop i = source[i] :: source.drop (i + 1) := List.drop_eq_getElem_cons h
    have hgetD : source.getD i 0 = source[i] := by
      simp [List.getD, List.getElem?_eq_getElem h]
    rcases htab : htmlEscaleTable (source.getD i 0) with _ | v
    · -- no escape: extend the pending run
      rw [rawWriteGo_eq_flatMap source (i + 1) (n + 1) (by omega) (by omega)]
      have e1 : i + 1 - (n + 1) = i - n := by omega
      rw [e1, hdrop, List.flatMap_cons]
      have e2 : i + 1 - (i - n) = (i - (i - n)) + 1 := by omega
      rw [e2, List.take_succ]
      have e3 : (source.drop (i - n))[i - (i - n)]? = some source[i] := by
        rw [List.getElem?_drop]
        have e : i - n + (i - (i - n)) = i := by omega
        rw [e, List.getElem?_eq_getElem h]
      rw [e3]
      have e4 : escByte source[i] = [source[i]] := by
        rw [escByte, ← hgetD, htab]
        rfl
      rw [e4]
      simp
    · -- escape hit: flush the run then the replacement
      rw [rawWriteGo_eq_flatMap source (i + 1) 0 (by omega) (by omega)]
      rw [hdrop, List.flatMap_cons]
      have e4 : escByte source[i] = v := by
        rw [escByte, ← hgetD, htab]
        rfl
      rw [e4]
      simp
  · rw [dif_neg h]
    have hil : i = source.length := by omega
    have hdrop : source.drop i = [] := by simp [hil]
    rw [hdrop]
    by_cases hn0 : n = 0
    · subst hn0
      simp
    · rw [if_pos hn0]
      rw [hil]
      have e5 : source.length - (source.length - n) = n := by omega
      rw [e5]
      have hlen : (source.drop (source.length - n)).length = n := by
        simp
        omega
      rw [List.take_of_length_le (le_of_eq hlen)]
      simp
termination_by source.length - i
decreasing_by all_goals omega

/-- `RawWrite` is exactly the escape-table substitution applied byte by byte. -/
theorem rawWrite_flatMap (source : Bytes) : rawWrite source = source.flatMap escByte := by
  rw [rawWrite, rawWriteGo_eq_flatMap source 0 0 (by omega) (by omega)]
  simp

theorem escByte_length (b : Nat) : 1 ≤ (escByte b).length := by
  unfold escByte htmlEscaleTable
  split_ifs <;> simp

theorem flatMap_escByte_length (s : Bytes) : s.length ≤ (s.flatMap escByte).length := by
  induction s with
  | nil => simp
  | cons a t ih =>
    rw [List.flatMap_cons]
    have := escByte_length a
    simp only [List.length_append, List.length_cons]
    omega

theorem quote_not_mem_escByte (b : Nat) : 34 ∉ escByte b := by
  unfold escByte htmlEscaleTable
  split_ifs with h1 h2 h3 h4 <;> simp_all <;> omega

theorem lt_not_mem_escByte (b : Nat) : 60 ∉ escByte b := by
  unfold escByte htmlEscaleTable
  split_ifs with h1 h2 h3 h4 <;> simp_all <;> omega

theorem gt_not_mem_escByte (b : Nat) : 62 ∉ escByte b := by
  unfold escByte htmlEscaleTable
  split_ifs with h1 h2 h3 h4 <;> simp_all <;> omega

theorem not_mem_flatMap_escByte (m : Nat) (hm : ∀ b, m ∉ escByte b) (s : Bytes) :
    m ∉ s.flatMap escByte := by
  induction s with
  | nil => simp
  | cons a t ih =>
    rw [List.flatMap_cons]
    intro hmem
    rcases List.mem_append.mp hmem with h | h
    · exact hm a h
    · exact ih h

theorem ampOk_cons_of_ne (b : Nat) (rest : List Nat) (hb : b ≠ 38)
    (h : ampOk rest = true) : ampOk (b :: rest) = true := by
  rw [ampOk.eq_def]
  simp [hb, h]

theorem ampOk_escByte_append (b : Nat) (ys : List Nat) (h : ampOk ys = true) :
    ampOk (escByte b ++ ys) = true := by
  unfold escByte htmlEscaleTable
  split_ifs with h1 h2 h3 h4
  · show ampOk (38 :: ([113, 117, 111, 116, 59] ++ ys)) = true
    rw [ampOk.eq_def]
    simp [h]
  · show ampOk (38 :: ([97, 109, 112, 59] ++ ys)) = true
    rw [ampOk.eq_def]
    simp [h]
  · show ampOk (38 :: ([108, 116, 59] ++ ys)) = true
    rw [ampOk.eq_def]
    simp [h]
  · show ampOk (38 :: ([103, 116, 59] ++ ys)) = true
    rw [ampOk.eq_def]
    simp [h]
  · show ampOk (b :: ys) = true
    by_cases hb : b = 38
    · subst hb
      simp_all
    · exact ampOk_cons_of_ne b ys hb h

theorem ampOk_flatMap_escByte (s : Bytes) : ampOk (s.flatMap escByte) = true := by
  induction s with
  | nil => simp [ampOk]
  | cons a t ih =>
    rw [List.flatMap_cons]
    exact ampOk_escByte_append a _ ih

theorem flatMap_escByte_id (s : Bytes)
    (hs : ∀ b ∈ s, b ≠ 34 ∧ b ≠ 38 ∧ b ≠ 60 ∧ b ≠ 62) : s.flatMap escByte = s := by
  induction s with
  | nil => simp
  | cons a t ih =>
    rw [List.flatMap_cons]
    have ha := hs a (by simp)
    have he : escByte a = [a] := by
      apply escByte_of_table_none
      unfold htmlEscaleTable
      rw [if_neg ha.1, if_neg ha.2.1, if_neg ha.2.2.1, if_neg ha.2.2.2]
    rw [he, ih (fun b hb => hs b (by simp [hb]))]
    rfl

/-- On input containing neither ampersands nor backslashes the `Write` loop
never fires a branch: it runs to the end with its pending run intact and
flushes it through `RawWrite`. -/
theorem writeLoop_pass (source : Bytes) (i n : Nat)
    (hfree : ∀ j, i ≤ j → j < source.length → source.getD j 0 ≠ 38 ∧ source.getD j 0 ≠ 92) :
    writeLoop source source.length i n false = some (rawWrite (source.drop n)) := by
  rw [writeLoop.eq_def]
  by_cases h : i < source.length
  · rw [dif_pos h]
    have hc := hfree i (le_refl i) h
    simp only [false_and, if_false, hc.1, hc.2, if_neg]
    exact writeLoop_pass source (i + 1) n (fun j hj hlt => hfree j (by omega) hlt)
  · rw [dif_neg h]
termination_by source.length - i
decreasing_by omega

theorem withNoErr_err (o : Option (Bytes × WalkStatus)) (r : Bytes × WalkStatus × Option RenderError)
    (h : withNoErr o = some r) : r.2.2 = none := by
  cases o with
  | none => simp [withNoErr] at h
  | some p =>
    simp only [withNoErr, Option.map_some', Option.some.injEq] at h
    rw [← h]

theorem withNoErr_some_eq (q : Bytes × WalkStatus) (r : Bytes × WalkStatus × Option RenderError)
    (h : withNoErr (some q) = some r) : r.1 = q.1 ∧ r.2.1 = q.2 ∧ r.2.2 = none := by
  simp only [withNoErr, Option.map_some', Option.some.injEq] at h
  rw [← h]
  exact ⟨rfl, rfl, rfl⟩

theorem withNoErr_opt_elim (o : Option (Bytes × WalkStatus))
    (r : Bytes × WalkStatus × Option RenderError) (h : withNoErr o = some r) :
    ∃ p, o = some p ∧ r.1 = p.1 ∧ r.2.1 = p.2 ∧ r.2.2 = none := by
  cases o with
  | none => simp [withNoErr] at h
  | some q =>
    rcases withNoErr_some_eq q r h with ⟨h1, h2, h3⟩
    exact ⟨q, rfl, h1, h2, h3⟩

theorem renderDocument_st (e : Bool) : (renderDocument e).2 = .Continue := rfl

theorem renderBlockquote_st (e : Bool) : (renderBlockquote e).2 = .Continue := by
  cases e <;> rfl

theorem renderCodeBlock_st (source : Bytes) (lines : List Segment) (e : Bool) :
    (renderCodeBlock source lines e).2 = .Continue := by
  cases e <;> rfl

theorem renderHTMLBlock_st (source : Bytes) (lines : List Segment) (cl : Option Segment)
    (e : Bool) : (renderHTMLBlock source lines cl e).2 = .Continue := by
  cases e <;> rfl

theorem renderList_st (ordered : Bool) (start : Nat) (e : Bool) :
    (renderList ordered start e).2 = .Continue := by
  cases e <;> rfl

theorem renderListItem_st (children : List Node) (e : Bool) :
    (renderListItem children e).2 = .Continue := by
  cases e <;> rfl

theorem renderParagraph_st (e : Bool) : (renderParagraph e).2 = .Continue := by
  cases e <;> rfl

theorem renderTextBlock_st (children : List Node) (hns e : Bool) :
    (renderTextBlock children hns e).2 = .Continue := by
  cases e <;> rfl

theorem renderThemanticBreak_st (cfg : Config) (e : Bool) :
    (renderThemanticBreak cfg e).2 = .Continue := by
  cases e <;> cases hx : cfg.xhtml <;> simp [renderThemanticBreak, hx]

theorem renderAutoLink_st (source : Bytes) (t : AutoLinkType) (v : Segment) (e : Bool) :
    (renderAutoLink source t v e).2 = .Continue := by
  cases e <;> rfl

theorem renderEmphasis_st (level : Nat) (e : Bool) : (renderEmphasis level e).2 = .Continue := by
  cases e <;> rfl

theorem renderRawHTML_st (e : Bool) : (renderRawHTML e).2 = .Continue := rfl

theorem renderHeading_st (level : Nat) (id : Option Bytes) (e : Bool) (p : Bytes × WalkStatus)
    (h : renderHeading level id e = some p) : p.2 = .Continue := by
  unfold renderHeading at h
  rcases Option.map_eq_some'.mp h with ⟨d, _, hd⟩
  rw [← hd]
  by_cases he : e = true <;> simp [he]

theorem renderFencedCodeBlock_st (source : Bytes) (info : Option Segment)
    (lines : List Segment) (e : Bool) (p : Bytes × WalkStatus)
    (h : renderFencedCodeBlock source info lines e = some p) : p.2 = .Continue := by
  unfold renderFencedCodeBlock at h
  split at h
  · split at h
    · rcases Option.map_eq_some'.mp h with ⟨lo, _, hp⟩
      rw [← hp]
    · injection h with h1
      rw [← h1]
  · injection h with h1
    rw [← h1]

theorem renderLink_st (dest : Bytes) (title : Option Bytes) (e : Bool) (p : Bytes × WalkStatus)
    (h : renderLink dest title e = some p) : p.2 = .Continue := by
  unfold renderLink at h
  split at h
  · split at h
    · rcases Option.map_eq_some'.mp h with ⟨titleOut, _, hp⟩
      rw [← hp]
    · injection h with h1
      rw [← h1]
  · injection h with h1
    rw [← h1]

theorem renderText_st (cfg : Config) (source : Bytes) (seg : Segment) (raw hb sb e : Bool)
    (p : Bytes × WalkStatus) (h : renderText cfg source seg raw hb sb e = some p) :
    p.2 = .Continue := by
  unfold renderText at h
  split at h
  · injection h with h1
    rw [← h1]
  · split at h
    · injection h with h1
      rw [← h1]
    · rcases Option.map_eq_some'.mp h with ⟨o, _, hp⟩
      rw [← hp]

theorem renderCodeSpan_st (source : Bytes) (children : List Node) (e : Bool)
    (p : Bytes × WalkStatus) (h : renderCodeSpan source children e = some p) :
    p.2 = if e = true then .SkipChildren else .Continue := by
  unfold renderCodeSpan at h
  cases e with
  | true =>
    simp only [if_pos] at h ⊢
    rcases Option.map_eq_some'.mp h with ⟨body, _, hp⟩
    rw [← hp]
  | false =>
    simp only [Bool.false_eq_true, if_false] at h ⊢
    injection h with h1
    rw [← h1]

theorem renderImage_st (cfg : Config) (source dest : Bytes) (title : Option Bytes)
    (children : List Node) (e : Bool) (p : Bytes × WalkStatus)
    (h : renderImage cfg source dest title children e = some p) :
    p.2 = if e = true then .SkipChildren else .Continue := by
  unfold renderImage at h
  cases e with
  | true =>
    simp only [Bool.not_true, Bool.false_eq_true, if_false, if_pos] at h ⊢
    split at h
    · rcases Option.map_eq_some'.mp h with ⟨titleOut, _, hp⟩
      rw [← hp]
    · injection h with h1
      rw [← h1]
  | false =>
    simp only [Bool.not_false, if_pos, Bool.false_eq_true, if_false] at h ⊢
    injection h with h1
    rw [← h1]

/-! ## Claim theorems -/

/-- C1: `Render(node, entering)` returns an error if and only if the node's
kind is outside the closed set of eighteen supported kinds; for every node of
a supported kind and either phase any returned result carries a nil error, and
for any unsupported kind the single unsupported-node-kind error is returned
together with `WalkContinue` and no output. -/
theorem Render_error_iff_unsupported (cfg : Config) (source : Bytes) (n : Node)
    (hns e : Bool) :
    (n.isSupported = true →
      ∀ r, render cfg source n hns e = some r → r.2.2 = none) ∧
    (n.isSupported = false →
      render cfg source n hns e = some ([], .Continue, some .notSupported)) := by
  constructor
  · intro hs r hr
    cases n <;>
      first
        | exact withNoErr_err _ _ hr
        | simp [Node.isSupported] at hs
  · intro hs
    cases n <;>
      first
        | rfl
        | simp [Node.isSupported] at hs

/-- Witness for C1: a supported node (a paragraph, on enter) renders with a
nil error, and the unsupported kind returns exactly the not-supported error. -/
theorem Render_error_iff_unsupported_witness :
    (([60, 112, 62] : Bytes), WalkStatus.Continue, (none : Option RenderError)).2.2 = none ∧
    render NewConfig [] Node.other false true = some ([], .Continue, some .notSupported) :=
  ⟨(Render_error_iff_unsupported NewConfig [] (.paragraph []) false true).1 rfl
      ([60, 112, 62], WalkStatus.Continue, none) rfl,
    (Render_error_iff_unsupported NewConfig [] Node.other false true).2 rfl⟩

/-- C2: `RawWrite` substitutes the escape-table sequence for each of the four
metacharacters and passes every other byte through unchanged and in order (the
output is the per-byte image of the input); the bytes 34, 60 and 62 never
appear in the output, every ampersand in the output begins one of the four
escape sequences, and the output is at least as long as the input. -/
theorem RawWrite_escapes_metacharacters (s : Bytes) :
    rawWrite s = s.flatMap escByte ∧
    (∀ b, escByte b =
      if b = 34 then [38, 113, 117, 111, 116, 59]
      else if b = 38 then [38, 97, 109, 112, 59]
      else if b = 60 then [38, 108, 116, 59]
      else if b = 62 then [38, 103, 116, 59]
      else [b]) ∧
    34 ∉ rawWrite s ∧ 60 ∉ rawWrite s ∧ 62 ∉ rawWrite s ∧
    ampOk (rawWrite s) = true ∧
    s.length ≤ (rawWrite s).length := by
  have hflat := rawWrite_flatMap s
  refine ⟨hflat, ?_, ?_, ?_, ?_, ?_, ?_⟩
  · intro b
    unfold escByte htmlEscaleTable
    split_ifs <;> rfl
  · rw [hflat]
    exact not_mem_flatMap_escByte 34 quote_not_mem_escByte s
  · rw [hflat]
    exact not_mem_flatMap_escByte 60 lt_not_mem_escByte s
  · rw [hflat]
    exact not_mem_flatMap_escByte 62 gt_not_mem_escByte s
  · rw [hflat]
    exact ampOk_flatMap_escByte s
  · rw [hflat]
    exact flatMap_escByte_length s

/-- C3: on any input containing none of the bytes ampersand (38), backslash
(92), quote (34), less-than (60) and greater-than (62), `Write` completes and
returns exactly its input. -/
theorem Write_identity_on_plain_text (s : Bytes)
    (hs : ∀ b ∈ s, b ≠ 38 ∧ b ≠ 92 ∧ b ≠ 34 ∧ b ≠ 60 ∧ b ≠ 62) :
    write s = some s := by
  rw [write]
  have hfree : ∀ j, 0 ≤ j → j < s.length → s.getD j 0 ≠ 38 ∧ s.getD j 0 ≠ 92 := by
    intro j _ hlt
    have hmem : s.getD j 0 ∈ s := by
      rw [List.getD, List.get?_eq_getElem?, List.getElem?_eq_getElem hlt]
      exact List.getElem_mem hlt
    exact ⟨(hs _ hmem).1, (hs _ hmem).2.1⟩
  rw [writeLoop_pass s 0 0 hfree]
  rw [List.drop_zero, rawWrite_flatMap]
  rw [flatMap_escByte_id s
    (fun b hb => ⟨(hs b hb).2.2.1, (hs b hb).1, (hs b hb).2.2.2.1, (hs b hb).2.2.2.2⟩)]

/-- Witness for C3: the input with bytes of "abc" satisfies the hypothesis and
is returned unchanged. -/
theorem Write_identity_on_plain_text_witness :
    (∀ b ∈ ([97, 98, 99] : Bytes), b ≠ 38 ∧ b ≠ 92 ∧ b ≠ 34 ∧ b ≠ 60 ∧ b ≠ 62) ∧
    write [97, 98, 99] = some [97, 98, 99] :=
  ⟨by decide, Write_identity_on_plain_text [97, 98, 99] (by decide)⟩

set_option maxRecDepth 8192

/-- C4 (code bug): on the two-byte input "&#" the Go code reads
`source[nnext]` with `nnext` equal to the input length before any bounds
check, an index-out-of-range panic; the embedding returns `none` (a panic)
instead of completing normally with the reference degraded to literal text as
the claim, following the spec, requires. -/
theorem Write_panics_on_truncated_numeric_reference : write [38, 35] = none := by
  simp [write, writeLoop, readWhile, isPunct, isHexDecimal, isNumeric, isAlphaNumeric]

/-- C5 (code bug): the decimal-reference digits are parsed by
`strconv.ParseUint` with base 0, so the leading zero of "&#010;" selects
octal: the reference decodes to code point 8 (emitted as the single byte 8),
not to the decimal value 10 the claim states. -/
theorem Write_decodes_leading_zero_reference_as_octal :
    write [38, 35, 48, 49, 48, 59] = some [8] := by
  simp [write, writeLoop, readWhile, rawWrite, rawWriteGo, parseUintBase0,
    isPunct, isHexDecimal, isNumeric, isAlphaNumeric,
    escapeRuneOut, htmlEscaleTable, toValidRune, utf8Encode, uint32ToRune]

/-- C6 counterexample: on the input bytes of "&#zz;" the output of `Write` is
not the verbatim input: the malformed reference falls through to the
metacharacter-escaping path, which rewrites the leading ampersand. -/
theorem Write_malformed_ref_not_verbatim_cex :
    write [38, 35, 122, 122, 59] ≠ some [38, 35, 122, 122, 59] := by
  have h : write [38, 35, 122, 122, 59] = some [38, 97, 109, 112, 59, 35, 122, 122, 59] := by
    simp [write, writeLoop, readWhile, rawWrite, rawWriteGo,
      isPunct, isHexDecimal, isNumeric, isAlphaNumeric, htmlEscaleTable]
  rw [h]
  decide

/-- C6 (amended): on the input bytes of "&#zz;" the output of `Write` is
exactly the bytes of "&amp;#zz;": the malformed reference is not decoded and
is left as literal text, so its bytes pass through the metacharacter-escaping
path, which emits the ampersand as "&amp;" and the rest unchanged. -/
theorem Write_malformed_ref_literal_escaped :
    write [38, 35, 122, 122, 59] = some [38, 97, 109, 112, 59, 35, 122, 122, 59] := by
  simp [write, writeLoop, readWhile, rawWrite, rawWriteGo,
    isPunct, isHexDecimal, isNumeric, isAlphaNumeric, htmlEscaleTable]

/-- C7: on the input bytes of "&amp;" `Write` decodes the named reference to
the single ampersand byte and re-escapes it through the escape table, so the
output is again exactly the bytes of "&amp;". -/
theorem Write_amp_reference_roundtrip :
    write [38, 97, 109, 112, 59] = some [38, 97, 109, 112, 59] := by
  simp [write, writeLoop, readWhile, lookUpHTML5EntityByName, rawWrite, rawWriteGo,
    isPunct, isHexDecimal, isNumeric, isAlphaNumeric, htmlEscaleTable]

/-- C8 counterexample: the enter-phase render of a concrete AutoLink node
emits the complete anchor but returns the `Continue` directive, not the
`SkipChildren` directive the claim states. -/
theorem renderAutoLink_returns_Continue_cex :
    render NewConfig [97, 98] (.autoLink .url ⟨0, 2⟩) false true =
      some ([60, 97, 32, 104, 114, 101, 102, 61, 34, 97, 98, 34, 62, 97, 98, 60, 47, 97, 62],
        .Continue, none) ∧
    WalkStatus.Continue ≠ WalkStatus.SkipChildren := by
  constructor
  · rfl
  · decide

/-- C8 (amended): for every AutoLink node the enter-phase call emits the
complete anchor — the open tag, "mailto:" auto-prefixed for email autolinks
whose lowercased destination does not already start with it, the URL- and
HTML-escaped destination, the HTML-escaped visible text and the close tag —
and returns the `Continue` directive (an AutoLink has no rendered children);
the exit-phase call emits nothing. -/
theorem renderAutoLink_anchor_on_enter (cfg : Config) (source : Bytes)
    (typ : AutoLinkType) (seg : Segment) (hns : Bool) :
    render cfg source (.autoLink typ seg) hns true =
      some ([60, 97, 32, 104, 114, 101, 102, 61, 34] ++
        (if typ = .email ∧
            ¬(List.isPrefixOf [109, 97, 105, 108, 116, 111, 58]
              (bytesToLower (seg.value source))) then
          [109, 97, 105, 108, 116, 111, 58]
        else []) ++
        escapeHTML (urlEscape (seg.value source) false) ++
        [34, 62] ++
        escapeHTML (seg.value source) ++
        [60, 47, 97, 62], .Continue, none) ∧
    render cfg source (.autoLink typ seg) hns false = some ([], .Continue, none) :=
  ⟨rfl, rfl⟩

/-- C9: the enter-phase render of a ListItem with a first child emits the open
tag followed by a newline exactly when that first child is not a TextBlock. -/
theorem renderListItem_newline_unless_TextBlock (cfg : Config) (source : Bytes)
    (fc : Node) (rest : List Node) (hns : Bool) :
    render cfg source (.listItem (fc :: rest)) hns true =
      some ([60, 108, 105, 62] ++ (if fc.isTextBlock then [] else [10]), .Continue, none) :=
  rfl

/-- C10: for every node of a supported kind and both phases, any returned
directive is `Continue` or `SkipChildren` — never `Stop` — and it is
`SkipChildren` exactly for a CodeSpan or Image node on enter. -/
theorem Render_directive_Continue_or_Skip (cfg : Config) (source : Bytes) (n : Node)
    (hns e : Bool) (out : Bytes) (st : WalkStatus) (err : Option RenderError)
    (hs : n.isSupported = true)
    (hr : render cfg source n hns e = some (out, st, err)) :
    st ≠ WalkStatus.Stop ∧
    (st = WalkStatus.SkipChildren ↔
      ((n.isCodeSpan = true ∨ n.isImage = true) ∧ e = true)) := by
  cases n with
  | document cs =>
    have hst : st = (renderDocument e).2 := (withNoErr_some_eq _ _ hr).2.1
    rw [renderDocument_st] at hst
    subst hst
    simp [Node.isCodeSpan, Node.isImage]
  | heading level id cs =>
    rcases withNoErr_opt_elim _ _ hr with ⟨p, hp, _, hst, _⟩
    rw [renderHeading_st level id e p hp] at hst
    have hst2 : st = WalkStatus.Continue := hst
    subst hst2
    simp [Node.isCodeSpan, Node.isImage]
  | blockquote cs =>
    have hst : st = (renderBlockquote e).2 := (withNoErr_some_eq _ _ hr).2.1
    rw [renderBlockquote_st] at hst
    subst hst
    simp [Node.isCodeSpan, Node.isImage]
  | codeBlock lines cs =>
    have hst : st = (renderCodeBlock source lines e).2 := (withNoErr_some_eq _ _ hr).2.1
    rw [renderCodeBlock_st] at hst
    subst hst
    simp [Node.isCodeSpan, Node.isImage]
  | fencedCodeBlock info lines cs =>
    rcases withNoErr_opt_elim _ _ hr with ⟨p, hp, _, hst, _⟩
    rw [renderFencedCodeBlock_st source info lines e p hp] at hst
    have hst2 : st = WalkStatus.Continue := hst
    subst hst2
    simp [Node.isCodeSpan, Node.isImage]
  | htmlBlock lines cl cs =>
    have hst : st = (renderHTMLBlock source lines cl e).2 := (withNoErr_some_eq _ _ hr).2.1
    rw [renderHTMLBlock_st] at hst
    subst hst
    simp [Node.isCodeSpan, Node.isImage]
  | list ordered start cs =>
    have hst : st = (renderList ordered start e).2 := (withNoErr_some_eq _ _ hr).2.1
    rw [renderList_st] at hst
    subst hst
    simp [Node.isCodeSpan, Node.isImage]
  | listItem cs =>
    have hst : st = (renderListItem cs e).2 := (withNoErr_some_eq _ _ hr).2.1
    rw [renderListItem_st] at hst
    subst hst
    simp [Node.isCodeSpan, Node.isImage]
  | paragraph cs =>
    have hst : st = (renderParagraph e).2 := (withNoErr_some_eq _ _ hr).2.1
    rw [renderParagraph_st] at hst
    subst hst
    simp [Node.isCodeSpan, Node.isImage]
  | textBlock cs =>
    have hst : st = (renderTextBlock cs hns e).2 := (withNoErr_some_eq _ _ hr).2.1
    rw [renderTextBlock_st] at hst
    subst hst
    simp [Node.isCodeSpan, Node.isImage]
  | themanticBreak =>
    have hst : st = (renderThemanticBreak cfg e).2 := (withNoErr_some_eq _ _ hr).2.1
    rw [renderThemanticBreak_st] at hst
    subst hst
    simp [Node.isCodeSpan, Node.isImage]
  | autoLink t v =>
    have hst : st = (renderAutoLink source t v e).2 := (withNoErr_some_eq _ _ hr).2.1
    rw [renderAutoLink_st] at hst
    subst hst
    simp [Node.isCodeSpan, Node.isImage]
  | codeSpan cs =>
    rcases withNoErr_opt_elim _ _ hr with ⟨p, hp, _, hst, _⟩
    rw [renderCodeSpan_st source cs e p hp] at hst
    have hst2 : st = if e = true then WalkStatus.SkipChildren else WalkStatus.Continue := hst
    subst hst2
    cases e <;> simp [Node.isCodeSpan, Node.isImage]
  | emphasis level cs =>
    have hst : st = (renderEmphasis level e).2 := (withNoErr_some_eq _ _ hr).2.1
    rw [renderEmphasis_st] at hst
    subst hst
    simp [Node.isCodeSpan, Node.isImage]
  | image dest title cs =>
    rcases withNoErr_opt_elim _ _ hr with ⟨p, hp, _, hst, _⟩
    rw [renderImage_st cfg source dest title cs e p hp] at hst
    have hst2 : st = if e = true then WalkStatus.SkipChildren else WalkStatus.Continue := hst
    subst hst2
    cases e <;> simp [Node.isCodeSpan, Node.isImage]
  | link dest title cs =>
    rcases withNoErr_opt_elim _ _ hr with ⟨p, hp, _, hst, _⟩
    rw [renderLink_st dest title e p hp] at hst
    have hst2 : st = WalkStatus.Continue := hst
    subst hst2
    simp [Node.isCodeSpan, Node.isImage]
  | rawHTML =>
    have hst : st = (renderRawHTML e).2 := (withNoErr_some_eq _ _ hr).2.1
    rw [renderRawHTML_st] at hst
    subst hst
    simp [Node.isCodeSpan, Node.isImage]
  | text seg raw hb sb =>
    rcases withNoErr_opt_elim _ _ hr with ⟨p, hp, _, hst, _⟩
    rw [renderText_st cfg source seg raw hb sb e p hp] at hst
    have hst2 : st = WalkStatus.Continue := hst
    subst hst2
    simp [Node.isCodeSpan, Node.isImage]
  | other =>
    simp [Node.isSupported] at hs

/-- Witness for C10: a CodeSpan node on enter returns `SkipChildren`, which is
not `Stop` and satisfies the biconditional. -/
theorem Render_directive_Continue_or_Skip_witness :
    WalkStatus.SkipChildren ≠ WalkStatus.Stop ∧
    (WalkStatus.SkipChildren = WalkStatus.SkipChildren ↔
      (((Node.codeSpan []).isCodeSpan = true ∨ (Node.codeSpan []).isImage = true) ∧
        true = true)) :=
  Render_directive_Continue_or_Skip NewConfig [] (.codeSpan []) false true
    [60, 99, 111, 100, 101, 62] .SkipChildren none rfl rfl

end GoldmarkHTML
